import Mathlib

/-!
Verification of the proagentic-dfx evidence-gated authorization engine
against its specification.

The enforcement hook (the ProSWARM gatekeeper) and the session-end
completion auditor are exercised by the repository tests but their
implementation files are not part of the source snapshot, so the
session store, action classifier, policy evaluator, evidence ledger and
completion auditor below are modelled from the specification text
(sections 3, 4 and 7 of the spec), with constants pinned by the unit
tests where the tests fix them (the 60 second inactivity timeout, the
reserved keys main_task_id / orchestration_plan / subtask_<id>, and the
denial reason headers).  The duplicate-requirements analysis is embedded
directly from src/scripts/archive/analyze_duplicates.py.
-/

namespace DFX

/-- Character-level substring test: does `pat` occur contiguously inside the
second list?  Used to embed the Python `pat in s` string tests of the
modelled pattern tables. -/
def occursIn (pat : List Char) : List Char → Bool
  | [] => pat.isEmpty
  | c :: rest => pat.isPrefixOf (c :: rest) || occursIn pat rest

/-- String-level wrapper of `occursIn`. -/
def containsSubstr (s pat : String) : Bool :=
  occursIn pat.data s.data

/-- Modelled from the spec: one `(key, value, timestamp)` evidence
declaration of the append-only `declarationHistory` (spec section 3); the
unit tests store these as `memory_operations` entries. -/
structure EvidenceDecl where
  key : String
  value : String
  timestamp : Nat
deriving DecidableEq, Repr

/-- Modelled from the spec: one `actionLog` entry — a privileged action
tagged with the work-unit set active at the time (spec section 3). -/
structure ActionLogEntry where
  toolName : String
  workUnits : List String
deriving DecidableEq, Repr

/-- Modelled from the spec: the Session Record, the only durable entity
(spec section 3); field names follow the spec, with `governingPlanId`
persisted by the hook as `main_task_id`. -/
structure SessionRecord where
  sessionStarted : Nat
  lastActivity : Nat
  enforcementActive : Bool
  governingPlanId : Option String
  pendingPlanCapture : Bool
  planCaptured : Bool
  declarationHistory : List EvidenceDecl
  actionLog : List ActionLogEntry
deriving DecidableEq, Repr

/-- The reserved plan-identifier key (pinned by the unit tests). -/
def planKey : String := "main_task_id"

/-- The reserved plan-content key (pinned by the unit tests). -/
def planContentKey : String := "orchestration_plan"

/-- The work-unit key marker: a declaration key of shape `subtask_<id>`
registers work unit `<id>` (pinned by the unit tests). -/
def subtaskMarker : String := "subtask_"

/-- Modelled from the spec: extract the work-unit identifier from a
declaration key of shape `subtask_<id>`, and `none` from any other key
(spec section 4.4, test `test_subtask_extraction_from_memory`). -/
def subtaskSuffix (key : String) : Option String :=
  if subtaskMarker.data.isPrefixOf key.data then
    some (String.mk (key.data.drop subtaskMarker.data.length))
  else none

/-- Modelled from the spec: `registeredWorkUnits()` recomputed by
filtering a declaration history for work-unit keys and extracting the
suffix (spec section 4.4). -/
def workUnitsOf (hist : List EvidenceDecl) : List String :=
  hist.filterMap (fun d => subtaskSuffix d.key)

/-- The registered work units of a session record, always recomputed from
the full declaration history. -/
def registeredWorkUnits (s : SessionRecord) : List String :=
  workUnitsOf s.declarationHistory

/-- The inactivity timeout in seconds (pinned at 60 by
`test_session_timeout_creates_new_session`). -/
def inactivityThresholdSeconds : Nat := 60

/-- Modelled from the spec: the longer absolute session-age ceiling,
"tens of minutes", applied regardless of activity (spec section 3);
fixed here at 30 minutes. -/
def absoluteThresholdSeconds : Nat := 1800

/-- Modelled from the spec: a fresh session record, all fields at
defaults and `governingPlanId = null` (spec section 3). -/
def freshSession (now : Nat) : SessionRecord :=
  { sessionStarted := now
    lastActivity := now
    enforcementActive := false
    governingPlanId := none
    pendingPlanCapture := false
    planCaptured := false
    declarationHistory := []
    actionLog := [] }

/-- Modelled from the spec: the timeout rule of section 3 — stale by
inactivity (over 60 seconds since last activity) or by absolute session
age (over the hard ceiling). -/
def sessionExpired (s : SessionRecord) (now : Nat) : Bool :=
  inactivityThresholdSeconds < now - s.lastActivity
    || absoluteThresholdSeconds < now - s.sessionStarted

/-- Modelled from the spec: `load()` of the Session Store — returns the
stored record, or a fresh record when nothing is stored or the timeout
rule fires (spec section 4.1). -/
def load (stored : Option SessionRecord) (now : Nat) : SessionRecord :=
  match stored with
  | none => freshSession now
  | some s => if sessionExpired s now then freshSession now else s

/-- Modelled from the spec: `save(record)` always stamps `lastActivity`
to now (spec section 4.1). -/
def save (s : SessionRecord) (now : Nat) : SessionRecord :=
  { s with lastActivity := now }

/-- Modelled from the spec: the closed enumeration of policy categories
(spec section 4.2). -/
inductive ActionCategory where
  | governance
  | capabilityLoad
  | declaration
  | privileged
  | inspective
  | delegation
  | unclassified
deriving DecidableEq, Repr

/-- Governance tools: register or update the governing plan (names pinned
by `test_orchestration_tools_identified`). -/
def governanceTools : List String :=
  [ "mcp__proswarm-neural__orchestrate_task"
  , "mcp__proswarm-neural__predict_decomposition"
  , "mcp__proswarm-neural__execute_plan"
  , "mcp__proswarm-neural__update_subtask_status" ]

/-- Capability-load tools (spec section 4.2; `Skill` is pinned as not a
work tool by `test_task_skill_not_work_tools`). -/
def capabilityTools : List String := ["Skill"]

/-- Declaration tools: record key/value evidence facts (names pinned by
the unit tests). -/
def declarationTools : List String :=
  [ "mcp__proswarm-neural__memory_store"
  , "mcp__proswarm-neural__memory_get" ]

/-- Privileged (work) tools: observable external effect (names pinned by
`test_work_tools_identified`). -/
def privilegedTools : List String :=
  [ "Bash", "Write", "Edit", "NotebookEdit"
  , "mcp__github__create_pull_request"
  , "mcp__github__push_files"
  , "mcp__supabase__execute_sql"
  , "mcp__chrome-devtools__click"
  , "mcp__chrome-devtools__fill" ]

/-- Inspective (analysis) tools: read without mutation (names pinned by
`test_analysis_tools_identified`). -/
def inspectiveTools : List String :=
  [ "Read", "Grep", "Glob", "WebSearch", "WebFetch", "TodoWrite"
  , "mcp__memory__search_nodes"
  , "mcp__context7__get-library-docs"
  , "mcp__github__get_issue"
  , "mcp__github__list_issues" ]

/-- Delegation tools: spawn a sub-agent (`Task` is pinned as not a work
tool by `test_task_skill_not_work_tools`). -/
def delegationTools : List String := ["Task"]

/-- Modelled from the spec: the static classification lookup, resolved in
the fixed priority order Governance, Capability-load, Declaration,
Privileged, Inspective, Delegation, Unclassified (spec section 4.2); the
pattern table is restricted to the exact tool names pinned by the unit
tests. -/
def classify (name : String) : ActionCategory :=
  if name ∈ governanceTools then .governance
  else if name ∈ capabilityTools then .capabilityLoad
  else if name ∈ declarationTools then .declaration
  else if name ∈ privilegedTools then .privileged
  else if name ∈ inspectiveTools then .inspective
  else if name ∈ delegationTools then .delegation
  else .unclassified

/-- The three-valued decision of the response interface (spec section 6). -/
inductive Decision where
  | allow
  | deny
  | ask
deriving DecidableEq, Repr

/-- A decision with its human-readable reason (spec section 6). -/
structure PolicyResult where
  decision : Decision
  reason : String
deriving DecidableEq, Repr

/-- Reason for rule 1 of the decision chain. -/
def enforcementInactiveReason : String := "enforcement not active"

/-- Reason for rule 2 of the decision chain. -/
def governanceAllowedReason : String :=
  "orchestration or capability tool is always allowed"

/-- Reason for rule 3 of the decision chain: header pinned by the unit
tests, body instructing the caller to register a governing plan first. -/
def orchestrationRequiredReason : String :=
  "PROSWARM ORCHESTRATION REQUIRED: register a governing plan by declaring the main_task_id evidence key before this action"

/-- Reason for rule 4 of the decision chain: header pinned by the unit
tests, body instructing the caller to declare a work-unit evidence key. -/
def subtaskRequiredReason : String :=
  "SUBTASK TRACKING REQUIRED: declare a work-unit evidence key of shape subtask_id before proceeding with this action"

/-- Reason for rule 5 of the decision chain. -/
def workAllowedReason : String :=
  "allowed: governing plan and registered work unit present"

/-- Reason for rule 6 of the decision chain. -/
def delegationAllowedReason : String :=
  "delegation allowed: governing plan present"

/-- Reason for rule 7 of the decision chain. -/
def passThroughReason : String :=
  "allowed - unknown or declaration tool passes through"

/-- Modelled from the spec: the four conceptual policy states overlaid on
the session record (spec section 4.3). -/
inductive PolicyState where
  | inactive
  | noPlan
  | planNoWork
  | planWithWork
deriving DecidableEq, Repr

/-- The conceptual policy state of a session record (spec section 4.3). -/
def sessionPolicyState (s : SessionRecord) : PolicyState :=
  if s.enforcementActive = false then .inactive
  else
    match s.governingPlanId with
    | none => .noPlan
    | some _ => if registeredWorkUnits s = [] then .planNoWork else .planWithWork

/-- Modelled from the spec: the phase-ordered decision chain of the
Policy Evaluator, rules 1 to 7, first match wins (spec section 4.3);
rule 5 additionally records the action and its active work-unit set into
the action log, so the evaluator returns the decision together with the
(possibly updated) session record. -/
def evaluatePolicy (s : SessionRecord) (name : String) :
    PolicyResult × SessionRecord :=
  let cat := classify name
  if s.enforcementActive = false then
    (⟨.allow, enforcementInactiveReason⟩, s)
  else if cat = .governance ∨ cat = .capabilityLoad then
    (⟨.allow, governanceAllowedReason⟩, s)
  else if s.governingPlanId = none ∧ cat ≠ .declaration then
    (⟨.deny, orchestrationRequiredReason⟩, s)
  else if (cat = .privileged ∨ cat = .inspective)
      ∧ s.governingPlanId ≠ none ∧ registeredWorkUnits s = [] then
    (⟨.deny, subtaskRequiredReason⟩, s)
  else if (cat = .privileged ∨ cat = .inspective)
      ∧ s.governingPlanId ≠ none ∧ registeredWorkUnits s ≠ [] then
    (⟨.allow, workAllowedReason⟩,
      { s with actionLog := s.actionLog ++ [⟨name, registeredWorkUnits s⟩] })
  else if cat = .delegation ∧ s.governingPlanId ≠ none then
    (⟨.allow, delegationAllowedReason⟩, s)
  else
    (⟨.allow, passThroughReason⟩, s)

/-- Modelled from the spec: `recordDeclaration(key, value)` of the
Evidence Ledger (spec section 4.4): appends the declaration; the reserved
plan-identifier key re-creates the record — discarding all prior work
units, declaration history and action log and preserving only the
`enforcementActive` flag (reset invariant, spec section 3) — and sets
`governingPlanId`; the reserved plan-content key sets `planCaptured`. -/
def recordDeclaration (s : SessionRecord) (key value : String) (now : Nat) :
    SessionRecord :=
  if key = planKey then
    { sessionStarted := now
      lastActivity := now
      enforcementActive := s.enforcementActive
      governingPlanId := some value
      pendingPlanCapture := false
      planCaptured := false
      declarationHistory := [⟨key, value, now⟩]
      actionLog := [] }
  else
    { s with
      lastActivity := now
      planCaptured := if key = planContentKey then true else s.planCaptured
      pendingPlanCapture :=
        if key = planContentKey then false else s.pendingPlanCapture
      declarationHistory := s.declarationHistory ++ [⟨key, value, now⟩] }

/-- Modelled from the spec: the per-action request from the host runtime
(spec section 6), either well formed (an action name with free-form
key/value arguments) or unparsable. -/
inductive GateRequest where
  | wellFormed (toolName : String) (args : List (String × String))
  | malformed (raw : String)
deriving DecidableEq, Repr

/-- Modelled from the spec: the persisted state as found at the fixed
storage location — absent, unparsable, or a well-formed record
(spec sections 4.1 and 7). -/
inductive StoredState where
  | absent
  | corrupt (raw : String)
  | wellFormed (record : SessionRecord)
deriving DecidableEq, Repr

/-- Modelled from the spec: parsing the persisted state; an unparsable
record is treated identically to an absent one (spec section 4.1). -/
def parseStored : StoredState → Option SessionRecord
  | .wellFormed s => some s
  | .absent => none
  | .corrupt _ => none

/-- Reason accompanying a fail-open resolution of an unparsable request
(error category 1, spec section 7). -/
def inputMalformedReason (raw : String) : String :=
  "allow, fault: input-malformed request: " ++ raw

/-- Reason accompanying a fail-open resolution of an internal fault
(error category 4, spec section 7). -/
def internalFaultReason (e : String) : String :=
  "allow, fault: internal-fault: " ++ e

/-- Modelled from the spec: the outer result boundary that converts any
internal fault of the evaluation call into the fixed fail-open allow
response (spec sections 7 and 9). -/
def failOpen (r : Except String PolicyResult) : PolicyResult :=
  match r with
  | .ok p => p
  | .error e => ⟨.allow, internalFaultReason e⟩

/-- Modelled from the spec: one gatekeeper invocation (spec section 2
control flow, section 7 propagation policy), abstracting the inner
evaluation call as a fallible function so that an internal fault is the
`Except.error` case wrapped by the `failOpen` boundary. -/
def gatekeeper (req : GateRequest) (stored : StoredState) (now : Nat)
    (evaluation : SessionRecord → String → Except String PolicyResult) :
    PolicyResult :=
  match req with
  | .malformed raw => ⟨.allow, inputMalformedReason raw⟩
  | .wellFormed name _ =>
      failOpen (evaluation (load (parseStored stored) now) name)

/-- The gatekeeper pipeline with the fault-free policy evaluator plugged
in as the evaluation call. -/
def runGatekeeper (req : GateRequest) (stored : StoredState) (now : Nat) :
    PolicyResult :=
  gatekeeper req stored now
    (fun s name => Except.ok (evaluatePolicy s name).1)

/-- Modelled from the spec: one entry of the session transcript the
Completion Auditor re-scans — a privileged file mutation, a privileged
command with its captured output, or any other action (spec section 4.5). -/
inductive TranscriptEntry where
  | fileWrite (path : String)
  | command (cmd : String) (output : String)
  | other (toolName : String)
deriving DecidableEq, Repr

/-- File extensions of implementation source artifacts. -/
def implExtensions : List String :=
  [".ts", ".tsx", ".js", ".jsx", ".py", ".rs", ".go"]

/-- Path markers of test artifacts. -/
def testPathMarkers : List String := ["test", "__tests__", ".spec."]

/-- Modelled from the spec: is the path an implementation artifact — a
source file, not a test, doc, or config file (spec section 4.5)? -/
def isImplementationFile (path : String) : Bool :=
  implExtensions.any (fun e => e.data.isSuffixOf path.data)
    && !(testPathMarkers.any (fun m => containsSubstr path m))

/-- Recognizable verification-command signatures (spec section 4.5). -/
def verificationCommandPatterns : List String :=
  ["npm test", "npm run test", "pytest", "jest", "cargo test", "go test"]

/-- Does the command match a verification-command signature? -/
def isVerificationCommand (cmd : String) : Bool :=
  verificationCommandPatterns.any (fun p => containsSubstr cmd p)

/-- Recognizable pass/fail report patterns in captured output
(spec section 4.5). -/
def passFailMarkers : List String :=
  ["passed", "failed", "passing", "failing", "PASS", "FAIL"]

/-- Does the captured output contain a recognizable pass/fail report
pattern (not merely an exit code)? -/
def hasPassFailMarker (output : String) : Bool :=
  passFailMarkers.any (fun m => containsSubstr output m)

/-- Modelled from the spec: a transcript entry counts as verification
evidence only when it is a command matching a verification signature AND
its captured output contains a pass/fail marker; a verification command
without a marker counts exactly as not run (spec section 4.5). -/
def isVerificationEvidence : TranscriptEntry → Bool
  | .command cmd output => isVerificationCommand cmd && hasPassFailMarker output
  | .fileWrite _ => false
  | .other _ => false

/-- Does the transcript contain any verification evidence? -/
def hasVerification (t : List TranscriptEntry) : Bool :=
  t.any isVerificationEvidence

/-- Modelled from the spec: the implementation files modified by the
transcript with no verification evidence afterwards (spec section 4.5,
verification-evidence check). -/
def unverifiedFiles : List TranscriptEntry → List String
  | [] => []
  | .fileWrite path :: rest =>
      if isImplementationFile path && !hasVerification rest then
        path :: unverifiedFiles rest
      else unverifiedFiles rest
  | .command _ _ :: rest => unverifiedFiles rest
  | .other _ :: rest => unverifiedFiles rest

/-- The verification command the blocking reason suggests. -/
def suggestedVerificationCommand : String := "npm test"

/-- The blocking reason of the verification-evidence check: names the
modified implementation files and the required verification command. -/
def verificationBlockReason (files : List String) : String :=
  "VERIFICATION REQUIRED: implementation files modified without subsequent verification: "
    ++ String.intercalate ", " files
    ++ "; run " ++ suggestedVerificationCommand
    ++ " and show its pass/fail output"

/-- The binary allow/block result of a Completion Auditor check
(spec section 6). -/
structure AuditResult where
  allowed : Bool
  reason : String
deriving DecidableEq, Repr

/-- Modelled from the spec: the verification-evidence check of the
Completion Auditor — blocks when some privileged file mutation of an
implementation artifact has no later verification command whose captured
output contains a pass/fail report pattern (spec section 4.5). -/
def verificationEvidenceCheck (t : List TranscriptEntry) : AuditResult :=
  match unverifiedFiles t with
  | [] => ⟨true, "verification evidence check passed"⟩
  | f :: fs => ⟨false, verificationBlockReason (f :: fs)⟩

/-- One row of the requirements-traceability CSV as read by
`analyze_duplicates` (src/scripts/archive/analyze_duplicates.py,
lines 17-27). -/
structure Requirement where
  reqId : String
  category : String
  description : String
  screen : String
  api : String
  status : String
deriving DecidableEq, Repr

/-- The inner loop of `analyze_duplicates` (lines 39-48): scan the rows
after the seed, skipping rows whose id is already checked, collecting
rows whose description is similar to the seed and marking their ids
checked; `simGE a b` embeds the test `similarity(a, b) >= threshold`, so
every threshold is covered by quantifying over `simGE`.  Returns the
collected group tail together with the updated checked set. -/
def collectGroup (simGE : String → String → Bool) (req1 : Requirement) :
    List Requirement → List String → List Requirement × List String
  | [], checked => ([], checked)
  | r :: rs, checked =>
    if r.reqId ∈ checked then collectGroup simGE req1 rs checked
    else if simGE req1.description r.description then
      let res := collectGroup simGE req1 rs (r.reqId :: checked)
      (r :: res.1, res.2)
    else collectGroup simGE req1 rs checked

/-- The outer loop of `analyze_duplicates` (lines 33-52): for each seed
row not already checked, collect its similarity group; keep the group
only when it has more than one member, then also mark the seed id
checked. -/
def dupGroups (simGE : String → String → Bool) :
    List Requirement → List String → List (List Requirement)
  | [], _ => []
  | r :: rs, checked =>
    if r.reqId ∈ checked then dupGroups simGE rs checked
    else
      let res := collectGroup simGE r rs checked
      if res.1.isEmpty then dupGroups simGE rs res.2
      else (r :: res.1) :: dupGroups simGE rs (r.reqId :: res.2)

/-- The value returned by `analyze_duplicates` under the
`similar_descriptions` key (lines 29-52 and 77-82 of
src/scripts/archive/analyze_duplicates.py): the duplicate groups computed
with an initially empty checked set. -/
def similar_descriptions (simGE : String → String → Bool)
    (reqs : List Requirement) : List (List Requirement) :=
  dupGroups simGE reqs []


/-- Concrete CSV row used by the duplicate-analysis witness. -/
def reqDupA : Requirement := ⟨"R1", "c", "dup", "", "", ""⟩

/-- Concrete CSV row with a dissimilar description. -/
def reqOther : Requirement := ⟨"R2", "c", "other", "", "", ""⟩

/-- Concrete CSV row duplicating the description of reqDupA. -/
def reqDupB : Requirement := ⟨"R3", "c", "dup", "", "", ""⟩

/-- Concrete session in state NoPlan: enforcement on, no governing plan. -/
def activeNoPlanSession : SessionRecord :=
  { freshSession 0 with enforcementActive := true }

/-- Concrete session in state PlanNoWork: plan set, no work units. -/
def activePlanNoWorkSession : SessionRecord :=
  { activeNoPlanSession with governingPlanId := some "task-123" }

/-- Concrete session in state PlanWithWork: plan set, one work unit. -/
def activePlanWithWorkSession : SessionRecord :=
  { activePlanNoWorkSession with declarationHistory := [⟨"subtask_work", "in_progress", 0⟩] }

/-- Concrete record whose last activity is recent but whose session age
exceeds the absolute ceiling. -/
def ceilingCexSession : SessionRecord :=
  { freshSession 0 with lastActivity := 7000, enforcementActive := true, governingPlanId := some "old-task-123" }

/-- Concrete record started and last touched at time 100. -/
def staleWitnessSession : SessionRecord :=
  { freshSession 100 with enforcementActive := true, governingPlanId := some "old-task-123" }

/-- Concrete record started and last touched at time 100, distinct plan. -/
def recentWitnessSession : SessionRecord :=
  { freshSession 100 with enforcementActive := true, governingPlanId := some "recent-task-456" }

/-- Concrete record started at time 500 used by the round-trip
counterexample. -/
def roundtripCexSession : SessionRecord :=
  { freshSession 500 with enforcementActive := true, governingPlanId := some "task-roundtrip" }

/-- Concrete record with every optional field populated, used by the
round-trip witness. -/
def roundtripWitnessSession : SessionRecord :=
  { freshSession 100 with enforcementActive := true, governingPlanId := some "task-rt", pendingPlanCapture := true, planCaptured := true, declarationHistory := [⟨"subtask_a", "x", 100⟩], actionLog := [⟨"Bash", ["a"]⟩] }

/-- C5: for every session whose enforcementActive flag is false, every
action, of every classification, is allowed regardless of all other
session state. -/
theorem inactive_enforcement_allows_all (s : SessionRecord) (name : String)
    (h : s.enforcementActive = false) :
    (evaluatePolicy s name).1 = ⟨.allow, enforcementInactiveReason⟩ := by
  simp [evaluatePolicy, h]

/-- C5 witness: a fresh session has enforcement off and a privileged tool
is allowed on it. -/
theorem inactive_enforcement_allows_all_witness :
    (evaluatePolicy (freshSession 0) "Bash").1
      = ⟨.allow, enforcementInactiveReason⟩ :=
  inactive_enforcement_allows_all (freshSession 0) "Bash" (by decide)

/-- C6: an action classified as Governance, Capability-load or
Declaration is allowed in every session state; these categories are never
blocked. -/
theorem governance_declaration_never_blocked (s : SessionRecord)
    (name : String)
    (hcat : classify name = .governance ∨ classify name = .capabilityLoad
      ∨ classify name = .declaration) :
    ((evaluatePolicy s name).1).decision = .allow := by
  rcases hcat with hc | hc | hc <;>
    cases h1 : s.enforcementActive <;>
    by_cases h2 : s.governingPlanId = none <;>
    simp [evaluatePolicy, h1, h2, hc]

/-- C6 witness: in a fresh session with enforcement on, no governing plan
and no work units, the governance tool orchestrate_task and the
declaration tool memory_store are both allowed. -/
theorem governance_declaration_never_blocked_witness :
    ((evaluatePolicy activeNoPlanSession
        "mcp__proswarm-neural__orchestrate_task").1).decision = .allow ∧
    ((evaluatePolicy activeNoPlanSession
        "mcp__proswarm-neural__memory_store").1).decision = .allow :=
  ⟨governance_declaration_never_blocked _ _ (Or.inl (by decide)),
   governance_declaration_never_blocked _ _ (Or.inr (Or.inr (by decide)))⟩

/-- C1: for every session state and every action name classified as
Privileged or Inspective, the policy evaluation denies the action in
state NoPlan with the reason instructing the caller to register a
governing plan, denies it in state PlanNoWork with the reason instructing
the caller to declare a work-unit evidence key, and allows it in state
PlanWithWork. -/
theorem privileged_inspective_gating (s : SessionRecord) (name : String)
    (hcat : classify name = .privileged ∨ classify name = .inspective) :
    (sessionPolicyState s = .noPlan →
      (evaluatePolicy s name).1 = ⟨.deny, orchestrationRequiredReason⟩) ∧
    (sessionPolicyState s = .planNoWork →
      (evaluatePolicy s name).1 = ⟨.deny, subtaskRequiredReason⟩) ∧
    (sessionPolicyState s = .planWithWork →
      (evaluatePolicy s name).1 = ⟨.allow, workAllowedReason⟩) := by
  rcases hcat with hc | hc <;>
    cases h1 : s.enforcementActive <;>
    cases h2 : s.governingPlanId <;>
    by_cases h3 : registeredWorkUnits s = [] <;>
    simp [sessionPolicyState, evaluatePolicy, h1, h2, h3, hc]

/-- C1 witness: the privileged tool Bash is denied with the
plan-registration reason in a NoPlan session, denied with the work-unit
reason in a PlanNoWork session, and the inspective tool Read is allowed
in a PlanWithWork session. -/
theorem privileged_inspective_gating_witness :
    (evaluatePolicy activeNoPlanSession "Bash").1
      = ⟨.deny, orchestrationRequiredReason⟩ ∧
    (evaluatePolicy activePlanNoWorkSession "Bash").1
      = ⟨.deny, subtaskRequiredReason⟩ ∧
    (evaluatePolicy activePlanWithWorkSession "Read").1
      = ⟨.allow, workAllowedReason⟩ :=
  ⟨(privileged_inspective_gating _ "Bash" (Or.inl (by decide))).1 (by decide),
   (privileged_inspective_gating _ "Bash" (Or.inl (by decide))).2.1 (by decide),
   (privileged_inspective_gating _ "Read" (Or.inr (by decide))).2.2 (by decide)⟩

/-- C3: declaring a governing plan (a declaration whose key is the
reserved plan-identifier key) always resets the registered work-unit set
to empty, discards the prior declaration history and action log,
preserves the enforcementActive flag and sets the governing plan id;
this holds for every prior session state, in particular when the declared
plan id equals the currently set one, so declaring the same plan id twice
in a row clears prior work units both times. -/
theorem plan_declaration_resets_session (s : SessionRecord)
    (value : String) (now : Nat) :
    registeredWorkUnits (recordDeclaration s planKey value now) = [] ∧
    (recordDeclaration s planKey value now).declarationHistory
      = [⟨planKey, value, now⟩] ∧
    (recordDeclaration s planKey value now).actionLog = [] ∧
    (recordDeclaration s planKey value now).enforcementActive
      = s.enforcementActive ∧
    (recordDeclaration s planKey value now).governingPlanId = some value := by
  have h : subtaskSuffix planKey = none := by decide
  refine ⟨?_, ?_, ?_, ?_, ?_⟩ <;>
    simp [recordDeclaration, registeredWorkUnits, workUnitsOf, h]

/-- C2 counterexample: a persisted record whose last activity is within
the 60 second inactivity threshold (10 seconds old) is nevertheless
replaced by a fresh record because its session age exceeds the absolute
ceiling, so load does not return the stored record with main_task_id
intact. -/
theorem load_within_inactivity_cex :
    (7010 : Nat) - ceilingCexSession.lastActivity
        ≤ inactivityThresholdSeconds ∧
    ceilingCexSession.governingPlanId = some "old-task-123" ∧
    (load (some ceilingCexSession) 7010).governingPlanId = none := by decide

/-- C2 (amended): a persisted record older than the 60 second inactivity
threshold is replaced by a fresh record with governing plan id null,
regardless of its stored contents; a record whose last activity is within
the inactivity threshold AND whose session age is within the absolute
ceiling is returned intact. -/
theorem load_timeout_rule (s : SessionRecord) (now : Nat) :
    (inactivityThresholdSeconds < now - s.lastActivity →
      load (some s) now = freshSession now ∧
      (load (some s) now).governingPlanId = none) ∧
    (now - s.lastActivity ≤ inactivityThresholdSeconds →
      now - s.sessionStarted ≤ absoluteThresholdSeconds →
      load (some s) now = s) := by
  constructor
  · intro h
    have hexp : sessionExpired s now = true := by
      simp only [sessionExpired, Bool.or_eq_true, decide_eq_true_eq]
      exact Or.inl h
    simp [load, hexp, freshSession]
  · intro h1 h2
    have hexp : sessionExpired s now = false := by
      simp only [sessionExpired, Bool.or_eq_false_iff,
        decide_eq_false_iff_not, Nat.not_lt]
      exact ⟨h1, h2⟩
    simp [load, hexp]

/-- C2 witness: a record 70 seconds stale is reset to a fresh record with
no governing plan, and a record 30 seconds stale inside a young session is
returned intact. -/
theorem load_timeout_rule_witness :
    (load (some staleWitnessSession) 170).governingPlanId = none ∧
    load (some recentWitnessSession) 130 = recentWitnessSession :=
  ⟨((load_timeout_rule staleWitnessSession 170).1 (by decide)).2,
   (load_timeout_rule recentWitnessSession 130).2 (by decide) (by decide)⟩

/-- C9 counterexample: for a stale persisted record (last activity 61
seconds before now) the composition save(load()) does not preserve the
governing plan id, a persisted field other than lastActivity. -/
theorem save_load_roundtrip_cex :
    roundtripCexSession.governingPlanId = some "task-roundtrip" ∧
    (save (load (some roundtripCexSession) 561) 561).governingPlanId
      ≠ some "task-roundtrip" := by decide

/-- C9 (amended): for every persisted record within the timeout
thresholds (last activity within the inactivity threshold and session age
within the absolute ceiling), save(load()) leaves every persisted field
unchanged except lastActivity, which save stamps to the current time. -/
theorem save_load_roundtrip (s : SessionRecord) (now : Nat)
    (h1 : now - s.lastActivity ≤ inactivityThresholdSeconds)
    (h2 : now - s.sessionStarted ≤ absoluteThresholdSeconds) :
    save (load (some s) now) now = { s with lastActivity := now } := by
  have hexp : sessionExpired s now = false := by
    simp only [sessionExpired, Bool.or_eq_false_iff,
      decide_eq_false_iff_not, Nat.not_lt]
    exact ⟨h1, h2⟩
  simp [load, save, hexp]

/-- C9 witness: save(load()) on a concrete in-threshold record changes
exactly the lastActivity field. -/
theorem save_load_roundtrip_witness :
    save (load (some roundtripWitnessSession) 130) 130
      = { roundtripWitnessSession with lastActivity := 130 } :=
  save_load_roundtrip roundtripWitnessSession 130 (by decide) (by decide)

/-- C4: the gatekeeper fails open — an unparsable request resolves to
allow with a reason naming the failure; an unparsable persisted record is
treated identically to an absent one (a fresh record); an internal fault
of the evaluation call is converted by the outer boundary into allow with
a reason naming the failure; and a deny decision of the pipeline only
ever arises from a well-formed request whose policy evaluation
legitimately denied, with the denial reason passed through. -/
theorem gatekeeper_fail_open :
    (∀ raw stored now evaluation,
      gatekeeper (.malformed raw) stored now evaluation
        = ⟨.allow, inputMalformedReason raw⟩) ∧
    (∀ raw req now evaluation,
      gatekeeper req (.corrupt raw) now evaluation
        = gatekeeper req .absent now evaluation) ∧
    (∀ raw now, load (parseStored (.corrupt raw)) now = freshSession now) ∧
    (∀ e, failOpen (.error e) = ⟨.allow, internalFaultReason e⟩) ∧
    (∀ req stored now, (runGatekeeper req stored now).decision = .deny →
      ∃ name args, req = .wellFormed name args ∧
        ((evaluatePolicy (load (parseStored stored) now) name).1).decision
          = .deny ∧
        (runGatekeeper req stored now).reason
          = ((evaluatePolicy (load (parseStored stored) now) name).1).reason) := by
  refine ⟨fun raw stored now evaluation => rfl,
    fun raw req now evaluation => ?_,
    fun raw now => rfl,
    fun e => rfl,
    fun req stored now h => ?_⟩
  · cases req <;> rfl
  · cases req with
    | malformed raw => simp [runGatekeeper, gatekeeper] at h
    | wellFormed name args =>
        exact ⟨name, args, rfl, h, rfl⟩

/-- C4 witness: an unparsable request is allowed with the fault reason,
a corrupt record behaves as an absent one for a concrete request, an
internal fault is allowed with the fault reason, and the concrete denial
of Bash over a corrupt record is a policy denial passed through. -/
theorem gatekeeper_fail_open_witness :
    gatekeeper (.malformed "not json") .absent 5
        (fun s n => .ok (evaluatePolicy s n).1)
      = ⟨.allow, inputMalformedReason "not json"⟩ ∧
    gatekeeper (.wellFormed "Bash" []) (.corrupt "garbage") 5
        (fun s n => .ok (evaluatePolicy s n).1)
      = gatekeeper (.wellFormed "Bash" []) .absent 5
          (fun s n => .ok (evaluatePolicy s n).1) ∧
    failOpen (.error "boom") = ⟨.allow, internalFaultReason "boom"⟩ ∧
    ∃ name args,
      GateRequest.wellFormed "Bash" ([("command", "ls")])
        = .wellFormed name args ∧
      ((evaluatePolicy
          (load (parseStored (.wellFormed activeNoPlanSession)) 5) name).1).decision
        = .deny ∧
      (runGatekeeper (.wellFormed "Bash" ([("command", "ls")]))
          (.wellFormed activeNoPlanSession) 5).reason
        = ((evaluatePolicy
            (load (parseStored (.wellFormed activeNoPlanSession)) 5) name).1).reason :=
  ⟨gatekeeper_fail_open.1 "not json" .absent 5 _,
   gatekeeper_fail_open.2.1 "garbage" (.wellFormed "Bash" []) 5 _,
   gatekeeper_fail_open.2.2.2.1 "boom",
   gatekeeper_fail_open.2.2.2.2 (.wellFormed "Bash" ([("command", "ls")]))
     (.wellFormed activeNoPlanSession) 5 (by decide)⟩

/-- A declaration key yields work unit u exactly when it is the work-unit
marker followed by u. -/
theorem subtaskSuffix_eq_some_iff (k u : String) :
    subtaskSuffix k = some u ↔ k = subtaskMarker ++ u := by
  constructor
  · intro h
    rw [subtaskSuffix] at h
    split at h
    case isTrue hp =>
      obtain ⟨t, ht⟩ : subtaskMarker.data <+: k.data := by
        simpa using hp
      have hdrop : k.data.drop subtaskMarker.data.length = t := by
        rw [← ht, List.drop_left]
      have hu : String.mk t = u := by
        rw [← hdrop]
        exact Option.some.inj h
      apply String.ext
      rw [String.data_append, ← hu]
      exact ht.symm
    case isFalse hp => exact absurd h (by simp)
  · intro h
    subst h
    rw [subtaskSuffix]
    have hcond : subtaskMarker.data.isPrefixOf (subtaskMarker ++ u).data
        = true := by
      rw [String.data_append]
      exact List.isPrefixOf_iff_prefix.mpr (List.prefix_append _ _)
    rw [if_pos hcond, String.data_append, List.drop_left]

/-- C7: for every declaration history, the registered work-unit query
returns exactly the suffixes of declarations whose key is the work-unit
marker followed by the unit id (so the key subtask_analysis yields the
unit analysis, and non-matching keys such as main_task_id yield nothing);
and recording any further declaration within the session (any key other
than the reserved plan-identifier key) never removes a previously
registered unit. -/
theorem work_units_from_history :
    (∀ (hist : List EvidenceDecl) (u : String),
      u ∈ workUnitsOf hist ↔ ∃ d ∈ hist, d.key = subtaskMarker ++ u) ∧
    (∀ (s : SessionRecord) (key value : String) (now : Nat),
      key ≠ planKey →
      ∀ u ∈ registeredWorkUnits s,
        u ∈ registeredWorkUnits (recordDeclaration s key value now)) := by
  constructor
  · intro hist u
    rw [workUnitsOf, List.mem_filterMap]
    constructor
    · rintro ⟨d, hd, hsome⟩
      exact ⟨d, hd, (subtaskSuffix_eq_some_iff d.key u).mp hsome⟩
    · rintro ⟨d, hd, hkey⟩
      exact ⟨d, hd, (subtaskSuffix_eq_some_iff d.key u).mpr hkey⟩
  · intro s key value now hkey u hu
    rw [registeredWorkUnits, recordDeclaration, if_neg hkey]
    rw [workUnitsOf, List.filterMap_append]
    exact List.mem_append_left _ hu

/-- C7 witness: the history holding subtask_analysis and main_task_id
registers exactly the unit analysis, and a later unrelated declaration
preserves it. -/
theorem work_units_from_history_witness :
    ("analysis" ∈ workUnitsOf
      [⟨"subtask_analysis", "x", 0⟩, ⟨"main_task_id", "t", 1⟩]) ∧
    ("work" ∈ registeredWorkUnits
      (recordDeclaration activePlanWithWorkSession "test_results" "ok" 9)) :=
  ⟨(work_units_from_history.1 _ "analysis").mpr
      ⟨⟨"subtask_analysis", "x", 0⟩, by decide, by decide⟩,
   work_units_from_history.2 activePlanWithWorkSession "test_results" "ok" 9
      (by decide) "work" (by decide)⟩

/-- Appending a verification-evidence entry clears every outstanding
unverified file: every earlier file mutation is then followed by it. -/
theorem unverifiedFiles_append_evidence (t : List TranscriptEntry)
    (e : TranscriptEntry) (he : isVerificationEvidence e = true) :
    unverifiedFiles (t ++ [e]) = [] := by
  induction t with
  | nil =>
      cases e with
      | fileWrite p => simp [isVerificationEvidence] at he
      | command c o => simp [unverifiedFiles]
      | other n => simp [unverifiedFiles]
  | cons hd rest ih =>
      cases hd with
      | fileWrite p =>
          have hv : hasVerification (rest ++ [e]) = true := by
            simp [hasVerification, List.any_append, he]
          simp [unverifiedFiles, hv, ih]
      | command c o => simpa [unverifiedFiles] using ih
      | other n => simpa [unverifiedFiles] using ih

/-- A file mutation of an implementation artifact with no verification
evidence afterwards is reported among the unverified files. -/
theorem mem_unverifiedFiles (l1 l2 : List TranscriptEntry) (p : String)
    (himpl : isImplementationFile p = true)
    (hnover : hasVerification l2 = false) :
    p ∈ unverifiedFiles (l1 ++ .fileWrite p :: l2) := by
  induction l1 with
  | nil => simp [unverifiedFiles, himpl, hnover]
  | cons hd rest ih =>
      cases hd with
      | fileWrite q =>
          simp only [List.cons_append, unverifiedFiles, List.append_eq]
          split
          · exact List.mem_cons_of_mem _ ih
          · exact ih
      | command c o => simpa [unverifiedFiles] using ih
      | other n => simpa [unverifiedFiles] using ih

/-- Inserting a command entry that is not verification evidence anywhere
in the transcript does not change the unverified files. -/
theorem unverifiedFiles_insert_no_evidence (l3 l4 : List TranscriptEntry)
    (c out : String)
    (hno : isVerificationEvidence (.command c out) = false) :
    unverifiedFiles (l3 ++ .command c out :: l4)
      = unverifiedFiles (l3 ++ l4) := by
  induction l3 with
  | nil => simp [unverifiedFiles]
  | cons hd rest ih =>
      cases hd with
      | fileWrite q =>
          have hv : hasVerification (rest ++ .command c out :: l4)
              = hasVerification (rest ++ l4) := by
            simp [hasVerification, List.any_append, List.any_cons, hno]
          simp only [List.cons_append, unverifiedFiles, List.append_eq, hv, ih]
      | command c2 o2 => simpa [unverifiedFiles] using ih
      | other n => simpa [unverifiedFiles] using ih

/-- C8: for every transcript containing a privileged file mutation of an
implementation source file with no later verification command whose
captured output contains a pass/fail report pattern, the Completion
Auditor verification-evidence check blocks, with a reason naming the
modified files and the required verification command; appending such a
verification action makes the check pass; and a verification command
whose output lacks any pass/fail marker counts exactly as if it had not
been run. -/
theorem verification_evidence_check_spec (l1 l2 : List TranscriptEntry)
    (p : String) (himpl : isImplementationFile p = true)
    (hnover : hasVerification l2 = false) :
    ((verificationEvidenceCheck (l1 ++ .fileWrite p :: l2)).allowed
        = false ∧
      p ∈ unverifiedFiles (l1 ++ .fileWrite p :: l2) ∧
      (verificationEvidenceCheck (l1 ++ .fileWrite p :: l2)).reason
        = verificationBlockReason
            (unverifiedFiles (l1 ++ .fileWrite p :: l2))) ∧
    (∀ c out, isVerificationCommand c = true → hasPassFailMarker out = true →
      (verificationEvidenceCheck
          ((l1 ++ .fileWrite p :: l2) ++ [.command c out])).allowed = true) ∧
    (∀ (l3 l4 : List TranscriptEntry) (c out : String),
      isVerificationCommand c = true → hasPassFailMarker out = false →
      unverifiedFiles (l3 ++ .command c out :: l4)
        = unverifiedFiles (l3 ++ l4)) := by
  have hmem := mem_unverifiedFiles l1 l2 p himpl hnover
  refine ⟨?_, ?_, ?_⟩
  · rcases hu : unverifiedFiles (l1 ++ .fileWrite p :: l2) with _ | ⟨f, fs⟩
    · rw [hu] at hmem
      exact absurd hmem (List.not_mem_nil p)
    · rw [hu] at hmem
      refine ⟨?_, hmem, ?_⟩ <;> simp [verificationEvidenceCheck, hu]
  · intro c out hc hout
    have he : isVerificationEvidence (.command c out) = true := by
      simp [isVerificationEvidence, hc, hout]
    have hz := unverifiedFiles_append_evidence
      (l1 ++ .fileWrite p :: l2) (.command c out) he
    simp only [List.append_assoc, List.cons_append] at hz
    simp [verificationEvidenceCheck, hz]
  · intro l3 l4 c out _ hout
    apply unverifiedFiles_insert_no_evidence
    simp [isVerificationEvidence, hout]

/-- C8 witness: a transcript writing src/foo.ts with no verification is
blocked and names the file; the same transcript followed by npm test with
passing output is allowed; and running npm test with markerless output
leaves the unverified files unchanged. -/
theorem verification_evidence_check_spec_witness :
    (verificationEvidenceCheck [.fileWrite "src/foo.ts"]).allowed = false ∧
    unverifiedFiles [.fileWrite "src/foo.ts"] = ["src/foo.ts"] ∧
    (verificationEvidenceCheck
        [.fileWrite "src/foo.ts", .command "npm test" "2 tests passed"]).allowed
      = true ∧
    unverifiedFiles [.fileWrite "src/foo.ts", .command "npm test" "done"]
      = unverifiedFiles [.fileWrite "src/foo.ts"] := by
  have h := verification_evidence_check_spec [] [] "src/foo.ts"
    (by decide) (by decide)
  exact ⟨h.1.1, by decide,
    h.2.1 "npm test" "2 tests passed" (by decide) (by decide),
    h.2.2 [.fileWrite "src/foo.ts"] [] "npm test" "done"
      (by decide) (by decide)⟩

/-- Invariants of the inner similarity-group loop: the collected tail is
an order-preserving selection of the scanned rows, none of its members
was already checked, and the returned checked set is exactly the input
checked set plus the ids of the collected members. -/
theorem collectGroup_spec (simGE : String → String → Bool)
    (req1 : Requirement) (rs : List Requirement) :
    ∀ checked : List String,
      (collectGroup simGE req1 rs checked).1.Sublist rs ∧
      (∀ x ∈ (collectGroup simGE req1 rs checked).1, x.reqId ∉ checked) ∧
      (∀ a, a ∈ (collectGroup simGE req1 rs checked).2 ↔
        a ∈ checked
          ∨ ∃ x ∈ (collectGroup simGE req1 rs checked).1, x.reqId = a) := by
  induction rs with
  | nil =>
      intro checked
      refine ⟨List.Sublist.refl _, ?_, ?_⟩ <;> simp [collectGroup]
  | cons r rs ih =>
      intro checked
      by_cases hc : r.reqId ∈ checked
      · have heq : collectGroup simGE req1 (r :: rs) checked
            = collectGroup simGE req1 rs checked := by
          simp [collectGroup, hc]
        rw [heq]
        obtain ⟨h1, h2, h3⟩ := ih checked
        exact ⟨h1.cons r, h2, h3⟩
      · by_cases hs : simGE req1.description r.description = true
        · have heq : collectGroup simGE req1 (r :: rs) checked
              = (r :: (collectGroup simGE req1 rs (r.reqId :: checked)).1,
                 (collectGroup simGE req1 rs (r.reqId :: checked)).2) := by
            simp [collectGroup, hc, hs]
          obtain ⟨h1, h2, h3⟩ := ih (r.reqId :: checked)
          rw [heq]
          refine ⟨h1.cons₂ r, ?_, ?_⟩
          · intro x hx
            rcases List.mem_cons.mp hx with rfl | hx
            · exact hc
            · intro hmem
              exact (h2 x hx) (List.mem_cons_of_mem _ hmem)
          · intro a
            rw [h3 a]
            constructor
            · rintro (ha | ⟨x, hx, hxa⟩)
              · rcases List.mem_cons.mp ha with h | h
                · exact Or.inr ⟨r, List.mem_cons_self r _, h.symm⟩
                · exact Or.inl h
              · exact Or.inr ⟨x, List.mem_cons_of_mem _ hx, hxa⟩
            · rintro (ha | ⟨x, hx, hxa⟩)
              · exact Or.inl (List.mem_cons_of_mem _ ha)
              · rcases List.mem_cons.mp hx with rfl | hx
                · exact Or.inl (List.mem_cons.mpr (Or.inl hxa.symm))
                · exact Or.inr ⟨x, hx, hxa⟩
        · have heq : collectGroup simGE req1 (r :: rs) checked
              = collectGroup simGE req1 rs checked := by
            simp [collectGroup, hc, hs]
          rw [heq]
          obtain ⟨h1, h2, h3⟩ := ih checked
          exact ⟨h1.cons r, h2, h3⟩

/-- Invariants of the outer duplicate-group loop: every emitted group has
at least two members, is an order-preserving selection of the scanned
rows, and contains no row whose id was already checked. -/
theorem dupGroups_spec (simGE : String → String → Bool)
    (rs : List Requirement) :
    ∀ checked : List String, ∀ g ∈ dupGroups simGE rs checked,
      2 ≤ g.length ∧ g.Sublist rs ∧ ∀ x ∈ g, x.reqId ∉ checked := by
  induction rs with
  | nil => intro checked g hg; simp [dupGroups] at hg
  | cons r rs ih =>
      intro checked g hg
      by_cases hc : r.reqId ∈ checked
      · have heq : dupGroups simGE (r :: rs) checked
            = dupGroups simGE rs checked := by
          simp [dupGroups, hc]
        rw [heq] at hg
        obtain ⟨h1, h2, h3⟩ := ih checked g hg
        exact ⟨h1, h2.cons r, h3⟩
      · obtain ⟨cs1, cs2, cs3⟩ := collectGroup_spec simGE r rs checked
        by_cases he : (collectGroup simGE r rs checked).1.isEmpty = true
        · have heq : dupGroups simGE (r :: rs) checked
              = dupGroups simGE rs (collectGroup simGE r rs checked).2 := by
            simp [dupGroups, hc, he]
          rw [heq] at hg
          obtain ⟨h1, h2, h3⟩ := ih _ g hg
          refine ⟨h1, h2.cons r, ?_⟩
          intro x hx hmem
          exact h3 x hx ((cs3 x.reqId).mpr (Or.inl hmem))
        · have heq : dupGroups simGE (r :: rs) checked
              = (r :: (collectGroup simGE r rs checked).1)
                :: dupGroups simGE rs
                    (r.reqId :: (collectGroup simGE r rs checked).2) := by
            simp [dupGroups, hc, he]
          rw [heq] at hg
          rcases List.mem_cons.mp hg with rfl | hg
          · refine ⟨?_, cs1.cons₂ r, ?_⟩
            · have hne : (collectGroup simGE r rs checked).1 ≠ [] := by
                simpa [List.isEmpty_iff] using he
              have hlen : 0 < (collectGroup simGE r rs checked).1.length :=
                List.length_pos.mpr hne
              simp only [List.length_cons]
              omega
            · intro x hx
              rcases List.mem_cons.mp hx with rfl | hx
              · exact hc
              · exact cs2 x hx
          · obtain ⟨h1, h2, h3⟩ := ih _ g hg
            refine ⟨h1, h2.cons r, ?_⟩
            intro x hx hmem
            exact h3 x hx
              (List.mem_cons_of_mem _ ((cs3 x.reqId).mpr (Or.inl hmem)))

/-- The emitted duplicate groups have pairwise disjoint id sets: every id
of an earlier group is checked before a later group is collected. -/
theorem dupGroups_pairwise (simGE : String → String → Bool)
    (rs : List Requirement) :
    ∀ checked : List String,
      List.Pairwise (fun g1 g2 => ∀ x ∈ g1, ∀ y ∈ g2, x.reqId ≠ y.reqId)
        (dupGroups simGE rs checked) := by
  induction rs with
  | nil => intro checked; simp [dupGroups]
  | cons r rs ih =>
      intro checked
      by_cases hc : r.reqId ∈ checked
      · simpa [dupGroups, hc] using ih checked
      · obtain ⟨cs1, cs2, cs3⟩ := collectGroup_spec simGE r rs checked
        by_cases he : (collectGroup simGE r rs checked).1.isEmpty = true
        · simpa [dupGroups, hc, he] using ih _
        · have heq : dupGroups simGE (r :: rs) checked
              = (r :: (collectGroup simGE r rs checked).1)
                :: dupGroups simGE rs
                    (r.reqId :: (collectGroup simGE r rs checked).2) := by
            simp [dupGroups, hc, he]
          rw [heq]
          refine List.Pairwise.cons ?_ (ih _)
          intro g2 hg2 x hx y hy
          have hy2 : y.reqId ∉ r.reqId :: (collectGroup simGE r rs checked).2 :=
            (dupGroups_spec simGE rs _ g2 hg2).2.2 y hy
          have hx2 : x.reqId ∈ r.reqId :: (collectGroup simGE r rs checked).2 := by
            rcases List.mem_cons.mp hx with rfl | hx
            · exact List.mem_cons_self _ _
            · exact List.mem_cons_of_mem _
                ((cs3 x.reqId).mpr (Or.inr ⟨x, hx, rfl⟩))
          intro hEq
          rw [hEq] at hx2
          exact hy2 hx2

/-- C10: for every input CSV (row list) and every similarity oracle
(hence every threshold), the groups returned by analyze_duplicates under
the similar_descriptions key each contain at least two requirements and
are order-preserving selections of the input (so the first member of a
group is its member with the lowest input index), and the groups have
pairwise disjoint requirement ids, so no input requirement row occurs in
more than one group. -/
theorem similar_descriptions_disjoint (simGE : String → String → Bool)
    (reqs : List Requirement) :
    (∀ g ∈ similar_descriptions simGE reqs,
      2 ≤ g.length ∧ g.Sublist reqs) ∧
    List.Pairwise (fun g1 g2 => ∀ x ∈ g1, ∀ y ∈ g2, x.reqId ≠ y.reqId)
      (similar_descriptions simGE reqs) := by
  constructor
  · intro g hg
    obtain ⟨h1, h2, _⟩ := dupGroups_spec simGE reqs [] g hg
    exact ⟨h1, h2⟩
  · exact dupGroups_pairwise simGE reqs []

/-- C10 witness: on the three-row input where rows R1 and R3 share a
description, the returned group has two members and is an
order-preserving selection of the input. -/
theorem similar_descriptions_disjoint_witness :
    2 ≤ ([reqDupA, reqDupB] : List Requirement).length ∧
    ([reqDupA, reqDupB] : List Requirement).Sublist
      [reqDupA, reqOther, reqDupB] :=
  (similar_descriptions_disjoint (fun a b => a == b)
      [reqDupA, reqOther, reqDupB]).1 [reqDupA, reqDupB] (by decide)

end DFX
